import Mathlib

/-!
Verification of the MCM3000 multi-channel linear-stage motion controller
(src/microscope/controllers/mcm3000.py).  The per-channel state, the
encoder/micrometre unit conversions, the deadband check, the move
legalization, the motion-completion polling loop, the limit mutators and
the wire-protocol codec are embedded as executable Lean definitions.
Micrometre quantities are modelled as rationals, encoder counts as
integers, byte strings as lists of naturals.  Python values that can be
None are modelled with Option, Python truthiness tests are modelled
explicitly, and Python exceptions are modelled with an error type whose
constructors name the raise sites.  Real time (the 6 second motion
timeout and the polling sleep) is abstracted into a finite budget of
observed poll values: exhausting the budget is the timeout.
-/

namespace MCM3000

/-- Failure modes of the controller, one constructor per Python raise site:
`typeError` for arithmetic on a None conversion factor, `attributeError`
for method access on a None serial port, `channelMismatch` for the
response channel-byte assertion in the encoder read, `stageNone` for the
stage-is-None assertion in the send helper (the typed
ChannelNotConfiguredError of the spec), `limitExceeded` for the bounds
assertions (the LimitExceededError of the spec), and `unexpectedData` for
the drained-input-buffer assertion after a write. -/
inductive Err where
  | typeError
  | attributeError
  | channelMismatch
  | stageNone
  | limitExceeded
  | unexpectedData
deriving DecidableEq

/-- Observable side effects of a controller operation.  `send` is a write
of a command frame on the serial port together with the number of response
bytes read back afterwards (none when no response is read).  `moveUm`
records the recursive corrective bump call
`self.move_um(channel, 10, relative=True, block=True, verbose=False)`
issued from the deadband check `_check_min_motion`. -/
inductive Action where
  | send (cmd : List Nat) (responseBytes : Option Nat)
  | moveUm (um : ℚ) (relative : Bool) (block : Bool)
deriving DecidableEq

/-- State of one configured channel: the per-channel entries of the
controller attributes that the constructor populates when the stage of the
channel is not None, namely `reverse`, `_stage_conversion_um`,
`_stage_lower_limit_um`, `_stage_upper_limit_um`,
`_stage_lowest_scan_point_um`, `_stage_highest_scan_point_um`,
`_stage_retract_point_um`, `_current_encoder_value` and
`_pending_encoder_value`. -/
structure CChan where
  reverse : Bool
  conv : ℚ
  lowerLimit : ℚ
  upperLimit : ℚ
  lowestScan : ℚ
  highestScan : ℚ
  retract : ℚ
  current : ℤ
  pending : Option ℤ
deriving DecidableEq

/-- The deadband `self._min_encoder_motion = 5` set in the constructor. -/
def minEncoderMotion : ℤ := 5

/-- Python `int()` applied to a real number: truncation toward zero. -/
def pyInt (q : ℚ) : ℤ := if 0 ≤ q then ⌊q⌋ else ⌈q⌉

/-- Python truthiness of an optional integer (the test `if x:` where x is
either None or an int): false exactly for None and for 0. -/
def pyTruthyInt : Option ℤ → Bool
  | none => false
  | some v => v ≠ 0

/-- Python truthiness of a number (the test `if x:`): false exactly for 0. -/
def pyTruthyQ (q : ℚ) : Bool := q ≠ 0

/-- Embeds `_um_from_encoder_value`: um = value * conversion, negated when
the channel is reversed.  The trailing + 0 of the source only normalises
the float -0.0 and is the identity on rationals. -/
def um_from_encoder_value (c : CChan) (encoderValue : ℤ) : ℚ :=
  let um : ℚ := (encoderValue : ℚ) * c.conv
  if c.reverse then -um else um

/-- Embeds `_encoder_value_from_um`: value = int(um / conversion), negated
when the channel is reversed. -/
def encoder_value_from_um (c : CChan) (um : ℚ) : ℤ :=
  let e := pyInt (um / c.conv)
  if c.reverse then -e else e

/-- Embeds `_check_min_motion`: decides whether a motion is needed and
issues the corrective bump for sub-deadband targets.  The branch on the
pending value is the Python truthiness test
`if self._pending_encoder_value[...]:`, so a pending value of 0 selects
the idle branch.  The recursive bump call is recorded as an emitted
action; it mutates only the encoder fields of the channel, never the limit
fields read afterwards by `legalize_move_um`. -/
def check_min_motion (c : CChan) (targetEncoderValue : ℤ) :
    Bool × List Action :=
  if pyTruthyInt c.pending then
    let p := c.pending.getD 0
    if targetEncoderValue = p then (false, [])
    else if |targetEncoderValue - p| ≤ minEncoderMotion then
      (true, [Action.moveUm 10 true true])
    else (true, [])
  else
    if targetEncoderValue = c.current then (false, [])
    else if |targetEncoderValue - c.current| ≤ minEncoderMotion then
      (true, [Action.moveUm 10 true true])
    else (true, [])

/-- The target encoder value computed at the top of `legalize_move_um`:
the converted request plus, for a relative move, the pending encoder value
if truthy (the test `if self._pending_encoder_value[...]:`), else the
current encoder value. -/
def targetEncoder (c : CChan) (moveUm : ℚ) (relative : Bool) : ℤ :=
  let t0 := encoder_value_from_um c moveUm
  if relative then
    if pyTruthyInt c.pending then t0 + c.pending.getD 0 else t0 + c.current
  else t0

/-- The effective lower bound used by `legalize_move_um`: the lowest scan
point when truthy (the test `if self._stage_lowest_scan_point_um[...]:`,
hence not for the value 0), else the hard lower limit. -/
def effectiveLower (c : CChan) : ℚ :=
  if pyTruthyQ c.lowestScan then c.lowestScan else c.lowerLimit

/-- The effective upper bound used by `legalize_move_um`: the highest scan
point when truthy, else the hard upper limit. -/
def effectiveUpper (c : CChan) : ℚ :=
  if pyTruthyQ c.highestScan then c.highestScan else c.upperLimit

/-- Embeds `legalize_move_um` on a configured channel: compute the target
encoder value, run the deadband check (returning the no-motion sentinel
None when it reports no motion needed), convert the target back to
micrometres and assert that it lies within the effective bounds, raising
the limit-exceeded assertion otherwise.  The second component collects the
emitted actions. -/
def legalize_move_um (c : CChan) (moveUm : ℚ) (relative : Bool) :
    Except Err (Option ℚ) × List Action :=
  let target := targetEncoder c moveUm relative
  let cm := check_min_motion c target
  if cm.1 = false then (Except.ok none, cm.2)
  else
    let targetMoveUm := um_from_encoder_value c target
    if effectiveLower c ≤ targetMoveUm ∧ targetMoveUm ≤ effectiveUpper c then
      (Except.ok (some targetMoveUm), cm.2)
    else (Except.error Err.limitExceeded, cm.2)

/-- The polling loop of `_finish_move`.  The first argument is the pending
encoder value, the second the poll value observed before entering the
loop, the third the values later polls would observe before the 6 second
deadline passes.  The loop stops with false (settled) as soon as the
observed value equals the pending value, and with true (timed out) when
the poll budget is exhausted while unequal; the returned integer is the
last observed encoder value. -/
def finishLoop (pending firstObserved : ℤ) (laterPolls : List ℤ) : ℤ × Bool :=
  match laterPolls with
  | [] => if firstObserved = pending then (firstObserved, false)
          else (firstObserved, true)
  | v :: rest => if firstObserved = pending then (firstObserved, false)
                 else finishLoop pending v rest

/-- Embeds `_finish_move`: if nothing is pending return immediately with
no state change, otherwise poll until the encoder equals the pending value
or the deadline passes, then store the last observed value as current,
clear the pending value and return the observed encoder value and its
position in micrometres.  The third component is the reported position
error: on timeout, current - pending is reported exactly when its absolute
value exceeds 1 count (the report is a console print, not an exception;
the function always returns normally). -/
def finish_move (c : CChan) (firstPoll : ℤ) (laterPolls : List ℤ) :
    CChan × Option (ℤ × ℚ) × Option ℤ :=
  match c.pending with
  | none => (c, none, none)
  | some p =>
      let r := finishLoop p firstPoll laterPolls
      let report := if r.2 = true ∧ 1 < |r.1 - p| then some (r.1 - p) else none
      ({ c with current := r.1, pending := none },
       some (r.1, um_from_encoder_value c r.1), report)

/-- Embeds `set_retract_point_um`.  The requested position argument is
None or a value; the Python truthiness test `if retract_pos_um:` treats
both None and 0 as absent, in which case the current position (the fresh
protocol read `get_position_um`, passed here as posNow) is used; a truthy
value is used as is, plus the current position when relative.  The target
must lie within the scan points, else the assertion raises and the state
is unchanged. -/
def set_retract_point_um (c : CChan) (retractPosUm : Option ℚ)
    (relative : Bool) (posNow : ℚ) : CChan × Option Err :=
  let target :=
    match retractPosUm with
    | some p => if pyTruthyQ p then (if relative then p + posNow else p)
                else posNow
    | none => posNow
  if c.lowestScan ≤ target ∧ target ≤ c.highestScan then
    ({ c with retract := target }, none)
  else (c, some Err.limitExceeded)

/-- Embeds `set_stage_limit_um`.  The limit argument is None or a value
(truthiness again: 0 counts as absent and the current position posNow is
used).  The target must lie within the hard limits, else the assertion
raises with the state unchanged.  The lower branch sets the lowest scan
point with no further check.  The upper branch sets the highest scan point
and, when the retract point now exceeds it, pulls the retract point down
through `set_retract_point_um`; a failure inside that nested call leaves
the already mutated highest scan point in place, as the Python exception
would. -/
def set_stage_limit_um (c : CChan) (limitUm : Option ℚ) (lowerLimit : Bool)
    (posNow : ℚ) : CChan × Option Err :=
  let target :=
    match limitUm with
    | some l => if pyTruthyQ l then l else posNow
    | none => posNow
  if c.lowerLimit ≤ target ∧ target ≤ c.upperLimit then
    if lowerLimit then ({ c with lowestScan := target }, none)
    else
      let c1 := { c with highestScan := target }
      if c1.retract > c1.highestScan then
        set_retract_point_um c1 (some target) false posNow
      else (c1, none)
  else (c, some Err.limitExceeded)

/-- Embeds `_reverse_limit_signs`: negates the two hard limits, the two
scan points and the retract point of the channel. -/
def reverse_limit_signs (c : CChan) : CChan :=
  { c with
    upperLimit := -c.upperLimit
    lowerLimit := -c.lowerLimit
    highestScan := -c.highestScan
    lowestScan := -c.lowestScan
    retract := -c.retract }

/-- The two stage models of the supported-stages table of the constructor.
Unsupported stage names are rejected by an assertion at construction and
never reach a channel. -/
inductive StageType where
  | ZFM2020
  | ZFM2030
deriving DecidableEq

/-- Travel limits and conversion factor per supported stage model, from
the supported-stages dictionary: both models have limits
[-12700 um, 12700 um] and conversion 0.2116667 um per count. -/
structure StageSpec where
  lower : ℚ
  upper : ℚ
  conversion : ℚ

/-- The supported-stages table of the constructor. -/
def stage_spec : StageType → StageSpec
  | StageType.ZFM2020 => ⟨-12700, 12700, 2116667 / 10000000⟩
  | StageType.ZFM2030 => ⟨-12700, 12700, 2116667 / 10000000⟩

/-- The limit normalization of the constructor: equal limits become a
symmetric range, swapped limits are swapped back. -/
def normalizeLimits (lo hi : ℚ) : ℚ × ℚ :=
  if lo = hi then (-|lo|, |lo|)
  else if lo > hi then (hi, lo)
  else (lo, hi)

/-- Channel construction for a configured channel, from the constructor
loop: hard limits from the normalized stage spec, conversion forced
positive with abs, scan points initialized to the hard limits, retract
point set 10 conversion units below the highest scan point, current
encoder value seeded from a read (in simulated mode the seeded value is a
placeholder string, modelled separately below), no pending value. -/
def init_channel (stage : StageType) (rev : Bool) (seed : ℤ) : CChan :=
  let spec := stage_spec stage
  let lims := normalizeLimits spec.lower spec.upper
  let conv := |spec.conversion|
  { reverse := rev
    conv := conv
    lowerLimit := lims.1
    upperLimit := lims.2
    lowestScan := lims.1
    highestScan := lims.2
    retract := lims.2 - conv * 10
    current := seed
    pending := none }

/-- The ordering invariant claimed by the spec:
hard lower limit ≤ lowest scan point ≤ highest scan point ≤ hard upper
limit, and lowest scan point ≤ retract point ≤ highest scan point. -/
def LimitInvariant (c : CChan) : Prop :=
  c.lowerLimit ≤ c.lowestScan ∧ c.lowestScan ≤ c.highestScan ∧
  c.highestScan ≤ c.upperLimit ∧ c.lowestScan ≤ c.retract ∧
  c.retract ≤ c.highestScan

/-- Little-endian byte encoding of a natural, fixed width in bytes, as
produced by the Python int.to_bytes with byteorder little. -/
def natToLE : Nat → Nat → List Nat
  | 0, _ => []
  | n + 1, v => v % 256 :: natToLE n (v / 256)

/-- Little-endian byte decoding of a natural, as computed by the Python
int.from_bytes with byteorder little. -/
def natFromLE : List Nat → Nat
  | [] => 0
  | b :: bs => b + 256 * natFromLE bs

/-- Signed 4-byte little-endian encoding, as produced by
encoder_value.to_bytes(4, little, signed=True): the two's complement
representation of the value. -/
def i32ToLE (v : ℤ) : List Nat := natToLE 4 (v % 2 ^ 32).toNat

/-- Signed little-endian decoding of 4 bytes, as computed by
int.from_bytes(..., signed=True): values at or above 2 to the 31 wrap to
negative. -/
def i32FromLE (bs : List Nat) : ℤ :=
  let u := natFromLE bs
  if u < 2 ^ 31 then (u : ℤ) else (u : ℤ) - 2 ^ 32

/-- The get-position request frame built in `_get_encoder_value`:
the bytes 0A 04, the internal channel index as one byte, then three zero
bytes.  The internal index is 0, 1 or 2, so the single-byte encoding is
the index itself. -/
def get_enc_cmd (internalIndex : Nat) : List Nat :=
  [0x0A, 0x04] ++ [internalIndex] ++ [0x00, 0x00, 0x00]

/-- The response handling of `_get_encoder_value`: the byte slice
response[6:7] must equal the channel byte, else the assertion raises; the
encoder value is the signed little-endian integer from the last four
bytes, response[-4:]. -/
def decode_position_response (response : List Nat) (internalIndex : Nat) :
    Except Err ℤ :=
  if (response.drop 6).take 1 = [internalIndex] then
    Except.ok (i32FromLE (response.drop (response.length - 4)))
  else Except.error Err.channelMismatch

/-- The move request frame built in `_move_to_encoder_value`: the bytes
53 04 06 00 00 00, the internal index as two bytes little-endian, then the
encoder value as four bytes little-endian signed. -/
def move_cmd (internalIndex : Nat) (encoderValue : ℤ) : List Nat :=
  [0x53, 0x04, 0x06, 0x00, 0x00, 0x00] ++ natToLE 2 internalIndex ++
    i32ToLE encoderValue

/-- The send performed by `_get_encoder_value`: the get-position frame
with a 12-byte response read. -/
def get_position_send (internalIndex : Nat) : Action :=
  Action.send (get_enc_cmd internalIndex) (some 12)

/-- The send performed by `_move_to_encoder_value`: the move frame with no
response read (`_send` is called with its response_bytes default None). -/
def move_to_encoder_value_send (internalIndex : Nat) (encoderValue : ℤ) :
    Action :=
  Action.send (move_cmd internalIndex encoderValue) none

/-- A channel of the controller as the constructor leaves it: either
unconfigured (stage None, so every per-channel list entry is None) or
configured with a populated channel record. -/
inductive ChanState where
  | unconfigured
  | configured (c : CChan)
deriving DecidableEq

/-- The conversion step of `legalize_move_um` at channel level.  On an
unconfigured channel `_stage_conversion_um[...]` is None and the division
um / None in `_encoder_value_from_um` raises TypeError before anything
else happens. -/
def encoder_value_from_um_entry (s : ChanState) (um : ℚ) : Except Err ℤ :=
  match s with
  | ChanState.unconfigured => Except.error Err.typeError
  | ChanState.configured c => Except.ok (encoder_value_from_um c um)

/-- Embeds `legalize_move_um` at channel level: the conversion of the
requested move is the first statement of the function, so its TypeError on
an unconfigured channel propagates before any check runs and before any
action is emitted. -/
def legalize_move_um_entry (s : ChanState) (moveUm : ℚ) (relative : Bool) :
    Except Err (Option ℚ) × List Action :=
  match encoder_value_from_um_entry s moveUm, s with
  | Except.error e, _ => (Except.error e, [])
  | Except.ok _, ChanState.unconfigured => (Except.error Err.typeError, [])
  | Except.ok _, ChanState.configured c => legalize_move_um c moveUm relative

/-- Embeds `move_um` at channel level: legalize, return the no-motion
sentinel as is, otherwise convert the legalized move and issue the move
command, setting the pending encoder value.  The completion of a
previously pending move and the optional blocking wait are the separately
modelled `finish_move`; they touch only the encoder fields.  On an
unconfigured channel the call dies inside legalization with the TypeError
of the conversion: the typed stage-is-None assertion of `_send` is never
reached, nothing is sent and the state is unchanged. -/
def move_um_entry (s : ChanState) (internalIndex : Nat) (moveUm : ℚ)
    (relative : Bool) : Except Err (Option ℚ) × ChanState × List Action :=
  match legalize_move_um_entry s moveUm relative with
  | (Except.error e, acts) => (Except.error e, s, acts)
  | (Except.ok none, acts) => (Except.ok none, s, acts)
  | (Except.ok (some legal), acts) =>
      match s with
      | ChanState.unconfigured => (Except.error Err.typeError, s, acts)
      | ChanState.configured c =>
          let v := encoder_value_from_um c legal
          (Except.ok (some legal),
           ChanState.configured { c with pending := some v },
           acts ++ [move_to_encoder_value_send internalIndex v])

/-- Responses the send helper `_send` can produce: real response bytes
read from the port, or the fixed placeholder string
(The response is simulated) returned when the simulated flag argument is
set. -/
inductive SendResp where
  | bytes (l : List Nat)
  | simulatedPlaceholder
deriving DecidableEq

/-- Embeds `_send`: assert the stage of the channel is configured (the
typed stage-is-None error), then in simulated mode synthesize the
placeholder response without touching the port; otherwise write on the
port (an AttributeError when the port is None, as after a simulated
construction), read the response when requested and assert the input
buffer is drained. -/
def send (stageConfigured portOpen : Bool) (_cmd : List Nat)
    (responseBytes : Option Nat) (simulatedArg : Bool)
    (realResponse : List Nat) (inWaitingZero : Bool) :
    Except Err (Option SendResp) :=
  if stageConfigured = false then Except.error Err.stageNone
  else if simulatedArg then
    Except.ok (if responseBytes.isSome then some SendResp.simulatedPlaceholder
               else none)
  else if portOpen = false then Except.error Err.attributeError
  else if inWaitingZero = false then Except.error Err.unexpectedData
  else Except.ok (responseBytes.map fun _ => SendResp.bytes realResponse)

/-- Embeds `_get_encoder_value`: send the get-position frame asking for a
12-byte response, then check the channel byte and decode.  When the
response is the simulated placeholder string, the slice response[6:7] is a
one-character string that can never equal the channel byte, so the channel
assertion always fails.  A None response would make the slicing itself
raise; that arm is unreachable because a response is always requested
here. -/
def get_encoder_value (internalIndex : Nat)
    (stageConfigured portOpen simulatedArg : Bool)
    (realResponse : List Nat) (inWaitingZero : Bool) : Except Err ℤ :=
  match send stageConfigured portOpen (get_enc_cmd internalIndex) (some 12)
      simulatedArg realResponse inWaitingZero with
  | Except.error e => Except.error e
  | Except.ok none => Except.error Err.typeError
  | Except.ok (some SendResp.simulatedPlaceholder) =>
      Except.error Err.channelMismatch
  | Except.ok (some (SendResp.bytes r)) =>
      decode_position_response r internalIndex

/-- Embeds `get_position_um`: always a fresh encoder read (the simulated
argument of the method defaults to False and the method never passes the
simulated attribute of the controller), converted to micrometres. -/
def get_position_um (c : CChan) (internalIndex : Nat)
    (portOpen simulatedArg : Bool) (realResponse : List Nat)
    (inWaitingZero : Bool) : Except Err ℚ :=
  match get_encoder_value internalIndex true portOpen simulatedArg
      realResponse inWaitingZero with
  | Except.error e => Except.error e
  | Except.ok v => Except.ok (um_from_encoder_value c v)

/-- The value the constructor seeds into `_current_encoder_value` for a
configured channel: a real encoder read, or in simulated mode the
placeholder string (the encoder is simulated), which is not a number. -/
inductive SeededEncoder where
  | value (v : ℤ)
  | placeholder
deriving DecidableEq

/-- The seeding branch of the constructor loop. -/
def seed_encoder (simulated : Bool) (readValue : ℤ) : SeededEncoder :=
  if simulated then SeededEncoder.placeholder else SeededEncoder.value readValue

/-- A configured channel with simple round numbers, already at encoder
position 300 which lies above its scan range: used to exhibit the no-op
path of legalization on an out-of-bounds position. -/
def chanNoopOut : CChan :=
  { reverse := false, conv := 1, lowerLimit := -200, upperLimit := 200,
    lowestScan := -100, highestScan := 100, retract := 50,
    current := 300, pending := none }

/-- A configured channel with simple round numbers at encoder position 0:
used as a concrete input for bound checks. -/
def chanMid : CChan :=
  { reverse := false, conv := 1, lowerLimit := -200, upperLimit := 200,
    lowestScan := -100, highestScan := 100, retract := 50,
    current := 0, pending := none }

/-- A configured channel with a pending encoder value of exactly 0 while
the current encoder value is 100: used to exhibit the falsy-pending
behaviour of the deadband check. -/
def chanPendingZero : CChan :=
  { reverse := false, conv := 1, lowerLimit := -200, upperLimit := 200,
    lowestScan := -100, highestScan := 100, retract := 50,
    current := 100, pending := some 0 }

/-- A configured channel with a nonzero pending encoder value: used as a
concrete input for the deadband rule. -/
def chanPending50 : CChan :=
  { reverse := false, conv := 1, lowerLimit := -200, upperLimit := 200,
    lowestScan := -100, highestScan := 100, retract := 50,
    current := 0, pending := some 50 }

/-- A configured channel whose lowest scan point is exactly 0: used to
exhibit the falsy-scan-point bound selection of legalization. -/
def chanZeroLowScan : CChan :=
  { reverse := false, conv := 1, lowerLimit := -200, upperLimit := 200,
    lowestScan := 0, highestScan := 100, retract := 50,
    current := 0, pending := none }

/-- A configured channel whose highest scan point is exactly 0: the
symmetric case. -/
def chanZeroHighScan : CChan :=
  { reverse := false, conv := 1, lowerLimit := -200, upperLimit := 200,
    lowestScan := -100, highestScan := 0, retract := -50,
    current := 0, pending := none }

/-- A configured channel with a pending value of exactly 0 and current
encoder value 7: concrete input for the pending-zero idle treatment. -/
def chanPendingZeroSmall : CChan :=
  { reverse := false, conv := 1, lowerLimit := -200, upperLimit := 200,
    lowestScan := -100, highestScan := 100, retract := 50,
    current := 7, pending := some 0 }

/-- A 12-byte response whose channel byte (index 6) is 2: concrete input
for the response decoding. -/
def respW : List Nat := [1, 2, 3, 4, 5, 6, 2, 8, 9, 10, 11, 12]

/-- C6 counterexample: on a channel whose stage is None, move_um fails
with the TypeError raised by int(um / None) inside the conversion, not
with the typed stage-is-None error (ChannelNotConfiguredError) that the
claim names; the claim as stated is false. -/
theorem move_um_unconfigured_counterexample :
    move_um_entry ChanState.unconfigured 0 5 true =
      (Except.error Err.typeError, ChanState.unconfigured, []) ∧
    Err.typeError ≠ Err.stageNone :=
  ⟨rfl, by simp⟩

/-- C6 amended: on a channel whose stage is None, move_um raises the
untyped TypeError of the None conversion factor before reaching the typed
stage-is-None guard in the send helper; it makes no state change and
sends nothing on the transport. -/
theorem move_um_unconfigured_type_error (internalIndex : Nat) (moveUm : ℚ)
    (relative : Bool) :
    move_um_entry ChanState.unconfigured internalIndex moveUm relative =
      (Except.error Err.typeError, ChanState.unconfigured, []) := rfl

/-- C7: on a simulated controller the constructor seeds the current
encoder value with a non-numeric placeholder, and get_position_um right
after construction does not return any seeded value: called with its
simulated parameter left at its default False it dereferences the None
port (AttributeError), and called with simulated=True the placeholder
response fails the channel-byte assertion (AssertionError, modelled as
the channel-mismatch error).  This contradicts the claim that the seeded
simulated value is returned without touching the transport. -/
theorem simulated_get_position_raises (realResponse : List Nat)
    (inWaitingZero : Bool) :
    seed_encoder true 0 = SeededEncoder.placeholder ∧
    get_position_um (init_channel StageType.ZFM2020 true 0) 0 false false
        realResponse inWaitingZero = Except.error Err.attributeError ∧
    get_position_um (init_channel StageType.ZFM2020 true 0) 0 false true
        realResponse inWaitingZero = Except.error Err.channelMismatch :=
  ⟨rfl, rfl, rfl⟩

/-- C10: a channel whose pending encoder value is exactly 0 is treated as
idle by both the relative-move base selection (the displacement is added
to the current encoder value, not the pending target) and the deadband
check (the comparison is made against the current encoder value). -/
theorem pending_zero_treated_as_idle (c : CChan) (moveUm : ℚ) (t : ℤ)
    (h : c.pending = some 0) :
    targetEncoder c moveUm true = encoder_value_from_um c moveUm + c.current ∧
    check_min_motion c t =
      (if t = c.current then (false, [])
       else if |t - c.current| ≤ minEncoderMotion then
         (true, [Action.moveUm 10 true true])
       else (true, [])) := by
  have hp : pyTruthyInt c.pending = false := by rw [h]; rfl
  constructor
  · simp [targetEncoder, hp]
  · simp [check_min_motion, hp]

/-- C10 witness: the idle treatment at a concrete channel with pending
value 0 and current encoder value 7. -/
theorem pending_zero_treated_as_idle_witness :
    targetEncoder chanPendingZeroSmall 3 true =
      encoder_value_from_um chanPendingZeroSmall 3 +
        chanPendingZeroSmall.current ∧
    check_min_motion chanPendingZeroSmall 9 =
      (if (9 : ℤ) = chanPendingZeroSmall.current then (false, [])
       else if |(9 : ℤ) - chanPendingZeroSmall.current| ≤ minEncoderMotion
         then (true, [Action.moveUm 10 true true])
       else (true, [])) :=
  pending_zero_treated_as_idle chanPendingZeroSmall 3 9 rfl

/-- C3 counterexample: a channel with pending encoder target P = 0 and
current encoder value 100, with a requested target t = 3 satisfying
0 < abs (t - P) ≤ the deadband: the claim demands one corrective bump,
but the truthiness test treats the zero pending value as no pending move
and compares against the current value, so no bump is issued and the move
proceeds directly. -/
theorem deadband_pending_zero_counterexample :
    chanPendingZero.pending = some 0 ∧
    (0 : ℤ) < |(3 : ℤ) - 0| ∧ |(3 : ℤ) - 0| ≤ minEncoderMotion ∧
    check_min_motion chanPendingZero 3 = (true, []) := by
  refine ⟨rfl, by decide, by decide, rfl⟩

/-- C3 amended: for a pending encoder target P that is not 0, a target
equal to P is a no-op and a target within the deadband of P (but not
equal) triggers exactly one corrective bump, the relative blocking move
of +10 um, before the move proceeds; when no move is pending the same
rule is applied against the current encoder value. -/
theorem deadband_bump_rule (c : CChan) (t : ℤ) :
    (∀ p, c.pending = some p → p ≠ 0 →
      ((t = p → check_min_motion c t = (false, [])) ∧
       (t ≠ p → |t - p| ≤ minEncoderMotion →
         check_min_motion c t = (true, [Action.moveUm 10 true true])))) ∧
    (c.pending = none →
      ((t = c.current → check_min_motion c t = (false, [])) ∧
       (t ≠ c.current → |t - c.current| ≤ minEncoderMotion →
         check_min_motion c t = (true, [Action.moveUm 10 true true])))) := by
  constructor
  · intro p hp hp0
    have ht : pyTruthyInt (some p) = true := by simp [pyTruthyInt, hp0]
    constructor
    · intro h; simp [check_min_motion, hp, ht, h]
    · intro h1 h2; simp [check_min_motion, hp, ht, h1, h2]
  · intro hp
    have ht : pyTruthyInt c.pending = false := by rw [hp]; rfl
    constructor
    · intro h; simp [check_min_motion, ht, h]
    · intro h1 h2; simp [check_min_motion, ht, h1, h2]

/-- C3 witness: the deadband rule at concrete channels, exercising the
bump branch with a pending target, the no-op branch, and the bump branch
against the current value with nothing pending. -/
theorem deadband_bump_rule_witness :
    check_min_motion chanPending50 53 = (true, [Action.moveUm 10 true true]) ∧
    check_min_motion chanPending50 50 = (false, []) ∧
    check_min_motion chanMid 3 = (true, [Action.moveUm 10 true true]) := by
  refine ⟨?_, ?_, ?_⟩
  · exact ((deadband_bump_rule chanPending50 53).1 50 rfl (by decide)).2
      (by decide) (by decide)
  · exact ((deadband_bump_rule chanPending50 50).1 50 rfl (by decide)).1 rfl
  · exact ((deadband_bump_rule chanMid 3).2 rfl).2 (by decide) (by decide)

/-- C1 counterexample: on a channel already positioned outside its
effective bounds, a request for exactly the current position computes a
target outside the bounds but the deadband check returns the no-motion
sentinel first, so legalization returns None and no limit-exceeded error
is raised; the unconditional raise of the claim is false. -/
theorem legalize_noop_out_of_bounds_counterexample :
    legalize_move_um chanNoopOut 300 false = (Except.ok none, []) ∧
    effectiveUpper chanNoopOut <
      um_from_encoder_value chanNoopOut (targetEncoder chanNoopOut 300 false) := by
  have htarget : targetEncoder chanNoopOut 300 false = 300 := by
    norm_num [targetEncoder, encoder_value_from_um, pyInt, chanNoopOut]
  have hcm : check_min_motion chanNoopOut 300 = (false, []) := rfl
  constructor
  · simp [legalize_move_um, htarget, hcm]
  · rw [htarget]
    norm_num [effectiveUpper, um_from_encoder_value, pyTruthyQ, chanNoopOut]

/-- C1 amended: legalize_move_um never returns a target value outside the
effective bounds (lowest scan point when truthy else hard lower limit,
highest scan point when truthy else hard upper limit); whenever the
deadband check lets the move proceed and the computed target lies outside
the bounds, it raises the limit-exceeded error instead of clamping or
returning; the only path that skips the bounds check is the no-motion
sentinel. -/
theorem legalize_within_effective_bounds (c : CChan) (moveUm : ℚ)
    (relative : Bool) :
    (∀ v acts,
      legalize_move_um c moveUm relative = (Except.ok (some v), acts) →
      effectiveLower c ≤ v ∧ v ≤ effectiveUpper c) ∧
    ((check_min_motion c (targetEncoder c moveUm relative)).1 = true →
      ¬(effectiveLower c ≤
          um_from_encoder_value c (targetEncoder c moveUm relative) ∧
        um_from_encoder_value c (targetEncoder c moveUm relative) ≤
          effectiveUpper c) →
      legalize_move_um c moveUm relative =
        (Except.error Err.limitExceeded,
         (check_min_motion c (targetEncoder c moveUm relative)).2)) := by
  constructor
  · intro v acts h
    simp only [legalize_move_um] at h
    by_cases h1 : (check_min_motion c (targetEncoder c moveUm relative)).1
        = false
    · rw [if_pos h1] at h
      exact absurd h (by simp)
    · rw [if_neg h1] at h
      by_cases h2 : effectiveLower c ≤
          um_from_encoder_value c (targetEncoder c moveUm relative) ∧
          um_from_encoder_value c (targetEncoder c moveUm relative) ≤
          effectiveUpper c
      · rw [if_pos h2] at h
        have hv : um_from_encoder_value c (targetEncoder c moveUm relative)
            = v := by
          have hfst := congrArg Prod.fst h
          simpa using hfst
        rw [← hv]
        exact h2
      · rw [if_neg h2] at h
        exact absurd h (by simp)
  · intro h1 h2
    simp only [legalize_move_um]
    rw [if_neg (by simp [h1]), if_neg h2]

/-- C1 witness: the bound property at a legal request of 50 um, and the
limit-exceeded raise at an out-of-bounds request of 150 um, on a channel
with scan range -100 to 100. -/
theorem legalize_within_effective_bounds_witness :
    (effectiveLower chanMid ≤ 50 ∧ (50 : ℚ) ≤ effectiveUpper chanMid) ∧
    legalize_move_um chanMid 150 false =
      (Except.error Err.limitExceeded,
       (check_min_motion chanMid (targetEncoder chanMid 150 false)).2) := by
  have ht50 : targetEncoder chanMid 50 false = 50 := by
    norm_num [targetEncoder, encoder_value_from_um, pyInt, chanMid]
  have hcm50 : check_min_motion chanMid 50 = (true, []) := rfl
  have hum50 : um_from_encoder_value chanMid 50 = 50 := by
    norm_num [um_from_encoder_value, chanMid]
  have hlegal : legalize_move_um chanMid 50 false =
      (Except.ok (some 50), []) := by
    simp only [legalize_move_um, ht50, hcm50, hum50]
    norm_num [effectiveLower, effectiveUpper, pyTruthyQ, chanMid]
  have ht150 : targetEncoder chanMid 150 false = 150 := by
    norm_num [targetEncoder, encoder_value_from_um, pyInt, chanMid]
  have hcm150 : (check_min_motion chanMid (targetEncoder chanMid 150 false)).1
      = true := by
    rw [ht150]; rfl
  have hb150 : ¬(effectiveLower chanMid ≤
      um_from_encoder_value chanMid (targetEncoder chanMid 150 false) ∧
      um_from_encoder_value chanMid (targetEncoder chanMid 150 false) ≤
      effectiveUpper chanMid) := by
    rw [ht150]
    norm_num [effectiveLower, effectiveUpper, pyTruthyQ,
      um_from_encoder_value, chanMid]
  exact ⟨(legalize_within_effective_bounds chanMid 50 false).1 50 [] hlegal,
    (legalize_within_effective_bounds chanMid 150 false).2 hcm150 hb150⟩

/-- C9: when the lowest (or highest) scan point of a channel is exactly 0
the Python truthiness test treats it as unset, so the effective bound
falls back to the hard limit, and a target strictly between the hard
limit and 0 is accepted by legalization even though it lies outside the
configured scan range. -/
theorem zero_scan_point_uses_hard_limit (c : CChan) (moveUm : ℚ) :
    (c.lowestScan = 0 → effectiveLower c = c.lowerLimit) ∧
    (c.highestScan = 0 → effectiveUpper c = c.upperLimit) ∧
    (c.lowestScan = 0 →
      (check_min_motion c (targetEncoder c moveUm false)).1 = true →
      c.lowerLimit < um_from_encoder_value c (targetEncoder c moveUm false) →
      um_from_encoder_value c (targetEncoder c moveUm false) < 0 →
      um_from_encoder_value c (targetEncoder c moveUm false) ≤
        effectiveUpper c →
      (legalize_move_um c moveUm false).1 =
        Except.ok
          (some (um_from_encoder_value c (targetEncoder c moveUm false))) ∧
      um_from_encoder_value c (targetEncoder c moveUm false) <
        c.lowestScan) ∧
    (c.highestScan = 0 →
      (check_min_motion c (targetEncoder c moveUm false)).1 = true →
      effectiveLower c ≤
        um_from_encoder_value c (targetEncoder c moveUm false) →
      0 < um_from_encoder_value c (targetEncoder c moveUm false) →
      um_from_encoder_value c (targetEncoder c moveUm false) <
        c.upperLimit →
      (legalize_move_um c moveUm false).1 =
        Except.ok
          (some (um_from_encoder_value c (targetEncoder c moveUm false))) ∧
      c.highestScan <
        um_from_encoder_value c (targetEncoder c moveUm false)) := by
  refine ⟨?_, ?_, ?_, ?_⟩
  · intro h0; simp [effectiveLower, pyTruthyQ, h0]
  · intro h0; simp [effectiveUpper, pyTruthyQ, h0]
  · intro h0 hcm hlo hhi hup
    have heff : effectiveLower c = c.lowerLimit := by
      simp [effectiveLower, pyTruthyQ, h0]
    have hcond : effectiveLower c ≤
        um_from_encoder_value c (targetEncoder c moveUm false) ∧
        um_from_encoder_value c (targetEncoder c moveUm false) ≤
        effectiveUpper c := ⟨by rw [heff]; exact le_of_lt hlo, hup⟩
    have hstep : legalize_move_um c moveUm false =
        (Except.ok
          (some (um_from_encoder_value c (targetEncoder c moveUm false))),
         (check_min_motion c (targetEncoder c moveUm false)).2) := by
      simp only [legalize_move_um]
      rw [if_neg (by simp [hcm]), if_pos hcond]
    exact ⟨by rw [hstep], by rw [h0]; exact hhi⟩
  · intro h0 hcm hlo hhi hup
    have heff : effectiveUpper c = c.upperLimit := by
      simp [effectiveUpper, pyTruthyQ, h0]
    have hcond : effectiveLower c ≤
        um_from_encoder_value c (targetEncoder c moveUm false) ∧
        um_from_encoder_value c (targetEncoder c moveUm false) ≤
        effectiveUpper c := ⟨hlo, by rw [heff]; exact le_of_lt hup⟩
    have hstep : legalize_move_um c moveUm false =
        (Except.ok
          (some (um_from_encoder_value c (targetEncoder c moveUm false))),
         (check_min_motion c (targetEncoder c moveUm false)).2) := by
      simp only [legalize_move_um]
      rw [if_neg (by simp [hcm]), if_pos hcond]
    exact ⟨by rw [hstep], by rw [h0]; exact hhi⟩

/-- C9 witness: with a lowest scan point of exactly 0 a move to -50 um is
accepted although -50 is below the scan range, and with a highest scan
point of exactly 0 a move to 50 um is accepted although 50 is above it. -/
theorem zero_scan_point_uses_hard_limit_witness :
    ((legalize_move_um chanZeroLowScan (-50) false).1 =
       Except.ok (some (um_from_encoder_value chanZeroLowScan
         (targetEncoder chanZeroLowScan (-50) false))) ∧
     um_from_encoder_value chanZeroLowScan
       (targetEncoder chanZeroLowScan (-50) false) <
       chanZeroLowScan.lowestScan) ∧
    ((legalize_move_um chanZeroHighScan 50 false).1 =
       Except.ok (some (um_from_encoder_value chanZeroHighScan
         (targetEncoder chanZeroHighScan 50 false))) ∧
     chanZeroHighScan.highestScan <
       um_from_encoder_value chanZeroHighScan
         (targetEncoder chanZeroHighScan 50 false)) := by
  have htL : targetEncoder chanZeroLowScan (-50) false = -50 := by
    norm_num [targetEncoder, encoder_value_from_um, pyInt, Int.ceil_neg,
      chanZeroLowScan]
  have humL : um_from_encoder_value chanZeroLowScan (-50) = -50 := by
    norm_num [um_from_encoder_value, chanZeroLowScan]
  have htH : targetEncoder chanZeroHighScan 50 false = 50 := by
    norm_num [targetEncoder, encoder_value_from_um, pyInt, chanZeroHighScan]
  have humH : um_from_encoder_value chanZeroHighScan 50 = 50 := by
    norm_num [um_from_encoder_value, chanZeroHighScan]
  constructor
  · exact (zero_scan_point_uses_hard_limit chanZeroLowScan (-50)).2.2.1 rfl
      (by rw [htL]; rfl)
      (by rw [htL, humL]; norm_num [chanZeroLowScan])
      (by rw [htL, humL]; norm_num)
      (by rw [htL, humL]
          norm_num [effectiveUpper, pyTruthyQ, chanZeroHighScan,
            chanZeroLowScan])
  · exact (zero_scan_point_uses_hard_limit chanZeroHighScan 50).2.2.2 rfl
      (by rw [htH]; rfl)
      (by rw [htH, humH]
          norm_num [effectiveLower, pyTruthyQ, chanZeroHighScan])
      (by rw [htH, humH]; norm_num)
      (by rw [htH, humH]; norm_num [chanZeroHighScan])

/-- C2 counterexample: the ordering invariant holds right after
construction of a ZFM2020 channel, yet set_stage_limit_um accepts a lower
scan point of 12699 um (within the hard limits) without comparing it to
the retract point 12697.883333 um, leaving the lowest scan point above
the retract point; and the sign-reversal operation negates all five
limits, leaving the lowest scan point above the highest.  The claimed
preservation by every mutating operation is false. -/
theorem limit_mutators_break_invariant_counterexample :
    LimitInvariant (init_channel StageType.ZFM2020 false 0) ∧
    (set_stage_limit_um (init_channel StageType.ZFM2020 false 0)
      (some 12699) true 0).2 = none ∧
    ¬ LimitInvariant (set_stage_limit_um (init_channel StageType.ZFM2020 false 0)
      (some 12699) true 0).1 ∧
    ¬ LimitInvariant (reverse_limit_signs
      (init_channel StageType.ZFM2020 false 0)) := by
  have habs : |(2116667 : ℚ) / 10000000| = 2116667 / 10000000 :=
    abs_of_pos (by norm_num)
  have hinit : init_channel StageType.ZFM2020 false 0 =
      { reverse := false, conv := 2116667 / 10000000, lowerLimit := -12700,
        upperLimit := 12700, lowestScan := -12700, highestScan := 12700,
        retract := 12700 - 2116667 / 10000000 * 10, current := 0,
        pending := none } := by
    simp [init_channel, stage_spec, normalizeLimits, habs]
    norm_num
  have hset : set_stage_limit_um (init_channel StageType.ZFM2020 false 0)
      (some 12699) true 0 =
      ({ reverse := false, conv := 2116667 / 10000000, lowerLimit := -12700,
         upperLimit := 12700, lowestScan := 12699, highestScan := 12700,
         retract := 12700 - 2116667 / 10000000 * 10, current := 0,
         pending := none }, none) := by
    rw [hinit]
    simp only [set_stage_limit_um]
    norm_num [pyTruthyQ]
  refine ⟨?_, ?_, ?_, ?_⟩
  · rw [hinit]; norm_num [LimitInvariant]
  · rw [hset]
  · rw [hset]; norm_num [LimitInvariant]
  · rw [hinit]; norm_num [LimitInvariant, reverse_limit_signs]

/-- C2 amended: the ordering invariant (hard lower limit ≤ lowest scan
point ≤ highest scan point ≤ hard upper limit, and lowest scan point ≤
retract point ≤ highest scan point) holds after construction for every
supported stage, and is preserved by set_retract_point_um, which either
rejects an out-of-range target leaving the state unchanged or stores a
retract point within the scan points; it is not preserved in general by
set_stage_limit_um (the lower branch never compares the new lowest scan
point to the retract point or the highest scan point) nor by the
sign-reversal operation (which reverses the ordering of all five
limits). -/
theorem construction_and_retract_preserve_invariant :
    (∀ (st : StageType) (rev : Bool) (seed : ℤ),
      LimitInvariant (init_channel st rev seed)) ∧
    (∀ (c : CChan) (pos : Option ℚ) (rel : Bool) (posNow : ℚ),
      LimitInvariant c →
      LimitInvariant (set_retract_point_um c pos rel posNow).1) := by
  constructor
  · intro st rev seed
    have habs : |(2116667 : ℚ) / 10000000| = 2116667 / 10000000 :=
      abs_of_pos (by norm_num)
    cases st <;>
      · simp only [init_channel, stage_spec, normalizeLimits, LimitInvariant,
          habs]
        norm_num
  · intro c pos rel posNow h
    simp only [set_retract_point_um]
    by_cases hb : c.lowestScan ≤
        (match pos with
         | some p => if pyTruthyQ p then (if rel then p + posNow else p)
                     else posNow
         | none => posNow) ∧
        (match pos with
         | some p => if pyTruthyQ p then (if rel then p + posNow else p)
                     else posNow
         | none => posNow) ≤ c.highestScan
    · rw [if_pos hb]
      obtain ⟨h1, h2, h3, -, -⟩ := h
      exact ⟨h1, h2, h3, hb.1, hb.2⟩
    · rw [if_neg hb]
      exact h

/-- C2 witness: the invariant after construction of a ZFM2020 channel and
after a successful retract-point update to 100 um on that channel. -/
theorem construction_and_retract_preserve_invariant_witness :
    LimitInvariant (init_channel StageType.ZFM2020 false 0) ∧
    LimitInvariant (set_retract_point_um
      (init_channel StageType.ZFM2020 false 0) (some 100) false 0).1 := by
  refine ⟨construction_and_retract_preserve_invariant.1 StageType.ZFM2020
    false 0, ?_⟩
  exact construction_and_retract_preserve_invariant.2
    (init_channel StageType.ZFM2020 false 0) (some 100) false 0
    (construction_and_retract_preserve_invariant.1 StageType.ZFM2020 false 0)

/-- Distance between a rational and its Python int truncation is at most
one. -/
theorem pyInt_near (q : ℚ) : |(pyInt q : ℚ) - q| ≤ 1 := by
  unfold pyInt
  by_cases h : 0 ≤ q
  · rw [if_pos h, abs_le]
    exact ⟨by linarith [Int.lt_floor_add_one q],
           by linarith [Int.floor_le q]⟩
  · rw [if_neg h, abs_le]
    exact ⟨by linarith [Int.le_ceil q],
           by linarith [Int.ceil_lt_add_one q]⟩

/-- C5: converting a distance in micrometres to encoder counts and back
changes it by at most one conversion unit, for both orientations of the
channel: the two conversions are exact inverses up to the integer
truncation of the count. -/
theorem roundtrip_within_one_count (c : CChan) (um : ℚ)
    (hconv : 0 < c.conv) :
    |um_from_encoder_value c (encoder_value_from_um c um) - um| ≤ c.conv := by
  have key : |((pyInt (um / c.conv) : ℤ) : ℚ) * c.conv - um| ≤ c.conv := by
    have hsplit : (((pyInt (um / c.conv) : ℤ) : ℚ) - um / c.conv) * c.conv =
        ((pyInt (um / c.conv) : ℤ) : ℚ) * c.conv - um := by
      rw [sub_mul, div_mul_cancel₀ um (ne_of_gt hconv)]
    calc |((pyInt (um / c.conv) : ℤ) : ℚ) * c.conv - um|
        = |((pyInt (um / c.conv) : ℤ) : ℚ) - um / c.conv| * c.conv := by
          rw [← hsplit, abs_mul, abs_of_pos hconv]
      _ ≤ 1 * c.conv := by
          exact mul_le_mul_of_nonneg_right (pyInt_near (um / c.conv))
            (le_of_lt hconv)
      _ = c.conv := one_mul _
  simp only [um_from_encoder_value, encoder_value_from_um]
  by_cases hr : c.reverse
  · simp only [hr, if_true]
    push_cast
    simpa [neg_mul, neg_neg] using key
  · simp only [hr, if_false]
    exact key

/-- C5 witness: the round trip at 8000 um on a constructed ZFM2020
channel with its positive conversion factor. -/
theorem roundtrip_within_one_count_witness :
    0 < (init_channel StageType.ZFM2020 false 0).conv ∧
    |um_from_encoder_value (init_channel StageType.ZFM2020 false 0)
        (encoder_value_from_um (init_channel StageType.ZFM2020 false 0)
          8000) - 8000| ≤
      (init_channel StageType.ZFM2020 false 0).conv := by
  have h : 0 < (init_channel StageType.ZFM2020 false 0).conv := by
    norm_num [init_channel, stage_spec, normalizeLimits]
  exact ⟨h, roundtrip_within_one_count _ 8000 h⟩

/-- The polling loop settles with the pending value exactly when the
pending value occurs among the observed polls. -/
theorem finishLoop_mem (p first : ℤ) (rest : List ℤ)
    (h : p ∈ first :: rest) : finishLoop p first rest = (p, false) := by
  induction rest generalizing first with
  | nil =>
      have hpf : p = first := by simpa using h
      subst hpf
      simp [finishLoop]
  | cons v vs ih =>
      by_cases hf : first = p
      · subst hf
        simp [finishLoop]
      · have hmem : p ∈ v :: vs := by
          rcases List.mem_cons.mp h with h1 | h1
          · exact absurd h1.symm hf
          · exact h1
        simp only [finishLoop]
        rw [if_neg hf]
        exact ih v hmem

/-- When the pending value never occurs among the observed polls, the
polling loop times out at the last observed value. -/
theorem finishLoop_not_mem (p first : ℤ) (rest : List ℤ)
    (h : p ∉ first :: rest) :
    finishLoop p first rest =
      ((first :: rest).getLast (List.cons_ne_nil first rest), true) := by
  induction rest generalizing first with
  | nil =>
      have hf : first ≠ p := fun hh => h (by simp [hh])
      simp only [finishLoop]
      rw [if_neg hf]
      rfl
  | cons v vs ih =>
      have hf : first ≠ p := fun hh => h (by simp [hh])
      have hrest : p ∉ v :: vs := fun hh => h (List.mem_cons_of_mem _ hh)
      simp only [finishLoop]
      rw [if_neg hf, ih v hrest]
      exact congrArg (fun x => (x, true))
        (List.getLast_cons (List.cons_ne_nil v vs)).symm

/-- C4: finish_move on an idle channel returns immediately with no state
change; on a channel with a pending target it polls until the encoder
equals the pending value or the budget before the 6 second deadline is
exhausted, then in both cases clears the pending value and stores the
last observed value as current, leaving the channel usable; it raises
nothing, and reports the residual position error current - pending only
on timeout and only when its absolute value exceeds one count. -/
theorem finish_move_spec (c : CChan) (firstPoll : ℤ) (laterPolls : List ℤ) :
    (c.pending = none → finish_move c firstPoll laterPolls = (c, none, none)) ∧
    (∀ p, c.pending = some p →
      (p ∈ firstPoll :: laterPolls →
        finish_move c firstPoll laterPolls =
          ({ c with current := p, pending := none },
           some (p, um_from_encoder_value c p), none)) ∧
      (p ∉ firstPoll :: laterPolls →
        finish_move c firstPoll laterPolls =
          ({ c with
              current := (firstPoll :: laterPolls).getLast
                (List.cons_ne_nil firstPoll laterPolls),
              pending := none },
           some ((firstPoll :: laterPolls).getLast
               (List.cons_ne_nil firstPoll laterPolls),
             um_from_encoder_value c ((firstPoll :: laterPolls).getLast
               (List.cons_ne_nil firstPoll laterPolls))),
           if 1 < |(firstPoll :: laterPolls).getLast
               (List.cons_ne_nil firstPoll laterPolls) - p| then
             some ((firstPoll :: laterPolls).getLast
               (List.cons_ne_nil firstPoll laterPolls) - p)
           else none))) := by
  constructor
  · intro h
    simp [finish_move, h]
  · intro p hp
    constructor
    · intro hmem
      simp only [finish_move, hp]
      rw [finishLoop_mem p firstPoll laterPolls hmem]
      simp
    · intro hnmem
      simp only [finish_move, hp]
      rw [finishLoop_not_mem p firstPoll laterPolls hnmem]
      simp

/-- C4 witness: finish_move at an idle channel, at a pending channel
whose second poll reaches the target, and at a pending channel whose poll
budget runs out away from the target. -/
theorem finish_move_spec_witness :
    finish_move chanMid 0 [] = (chanMid, none, none) ∧
    finish_move chanPending50 0 [50] =
      ({ chanPending50 with current := 50, pending := none },
       some (50, um_from_encoder_value chanPending50 50), none) ∧
    finish_move chanPending50 0 [1] =
      ({ chanPending50 with
          current := ((0 : ℤ) :: [1]).getLast (List.cons_ne_nil 0 [1]),
          pending := none },
       some (((0 : ℤ) :: [1]).getLast (List.cons_ne_nil 0 [1]),
         um_from_encoder_value chanPending50
           (((0 : ℤ) :: [1]).getLast (List.cons_ne_nil 0 [1]))),
       if 1 < |((0 : ℤ) :: [1]).getLast (List.cons_ne_nil 0 [1]) - 50| then
         some (((0 : ℤ) :: [1]).getLast (List.cons_ne_nil 0 [1]) - 50)
       else none) := by
  refine ⟨(finish_move_spec chanMid 0 []).1 rfl, ?_, ?_⟩
  · exact ((finish_move_spec chanPending50 0 [50]).2 50 rfl).1 (by decide)
  · exact ((finish_move_spec chanPending50 0 [1]).2 50 rfl).2 (by decide)

/-- Little-endian decoding inverts little-endian encoding modulo the
width of the encoding. -/
theorem natFromLE_natToLE (n v : Nat) :
    natFromLE (natToLE n v) = v % 256 ^ n := by
  induction n generalizing v with
  | zero => simp [natToLE, natFromLE, Nat.mod_one]
  | succ n ih =>
      simp only [natToLE, natFromLE, ih]
      rw [pow_succ']
      exact Nat.mod_mul.symm

/-- Signed 4-byte little-endian decoding inverts the two's-complement
encoding on the i32 range. -/
theorem i32FromLE_i32ToLE (v : ℤ) (h1 : -(2 ^ 31) ≤ v) (h2 : v < 2 ^ 31) :
    i32FromLE (i32ToLE v) = v := by
  norm_num at h1 h2
  simp only [i32ToLE, i32FromLE, natFromLE_natToLE]
  norm_num
  split_ifs with hcase <;> omega

/-- Decoding accepts a 12-byte response whose channel byte matches and
extracts the signed encoder value from the last four bytes. -/
theorem decode_position_ok (resp : List Nat) (i : Nat)
    (h12 : resp.length = 12) (h6 : resp[6]? = some i) :
    decode_position_response resp i =
      Except.ok (i32FromLE (resp.drop 8)) := by
  obtain ⟨h6lt, hget⟩ := List.getElem?_eq_some.mp h6
  unfold decode_position_response
  rw [List.drop_eq_getElem_cons h6lt, hget]
  simp [h12]

/-- Decoding rejects a response whose channel byte does not match. -/
theorem decode_position_mismatch (resp : List Nat) (i j : Nat)
    (h6 : resp[6]? = some j) (hne : j ≠ i) :
    decode_position_response resp i = Except.error Err.channelMismatch := by
  obtain ⟨h6lt, hget⟩ := List.getElem?_eq_some.mp h6
  unfold decode_position_response
  rw [List.drop_eq_getElem_cons h6lt, hget]
  simp [hne]

/-- C8: the get-position request frame is exactly the six bytes
0A 04 index 00 00 00 with a 12-byte response read; byte 6 of the response
must equal the internal index, else the decode fails with the channel
mismatch error, and the encoder value is the signed little-endian i32
from the last four bytes (decoding inverts the encoding on the i32
range); the move request frame is exactly 53 04 06 00 00 00 followed by
the index as two bytes little-endian and the value as four bytes
little-endian signed, with no response read. -/
theorem wire_format_spec (i : Nat) (v : ℤ) (resp : List Nat) :
    get_enc_cmd i = [0x0A, 0x04, i, 0x00, 0x00, 0x00] ∧
    get_position_send i = Action.send (get_enc_cmd i) (some 12) ∧
    (resp.length = 12 → resp[6]? = some i →
      decode_position_response resp i =
        Except.ok (i32FromLE (resp.drop 8))) ∧
    (∀ j, resp[6]? = some j → j ≠ i →
      decode_position_response resp i = Except.error Err.channelMismatch) ∧
    (-(2 ^ 31) ≤ v → v < 2 ^ 31 → i32FromLE (i32ToLE v) = v) ∧
    move_cmd i v =
      [0x53, 0x04, 0x06, 0x00, 0x00, 0x00] ++ natToLE 2 i ++ i32ToLE v ∧
    move_to_encoder_value_send i v = Action.send (move_cmd i v) none :=
  ⟨rfl, rfl, decode_position_ok resp i,
   fun j h hne => decode_position_mismatch resp i j h hne,
   i32FromLE_i32ToLE v, rfl, rfl⟩

/-- C8 witness: decoding a matching concrete 12-byte response, rejecting
it for the wrong channel, and the signed round trip at the negative value
-2. -/
theorem wire_format_spec_witness :
    decode_position_response respW 2 =
      Except.ok (i32FromLE (respW.drop 8)) ∧
    decode_position_response respW 0 = Except.error Err.channelMismatch ∧
    i32FromLE (i32ToLE (-2)) = -2 := by
  refine ⟨?_, ?_, ?_⟩
  · exact (wire_format_spec 2 0 respW).2.2.1 rfl rfl
  · exact (wire_format_spec 0 0 respW).2.2.2.1 2 rfl (by decide)
  · exact (wire_format_spec 0 (-2) []).2.2.2.2.1 (by norm_num) (by norm_num)

end MCM3000
